import Mathlib

/-!
# tank.io — the game-state handlers of `src/server/webServer.js`

A shallow embedding of the three socket handlers (`onStart`, `newPlayer`,
`move`) and of the broadcast timer callback (`resetFrame`), followed by the
properties of the specification that concern them.

Modelling conventions

* JavaScript numbers are modelled by `Int`: finite values with exact
  arithmetic (no `NaN`, no rounding).
* The shared mutable module `objects` is an explicit `World` value that every
  handler receives and returns.
* A handler returns a `Step`: the world it leaves behind, the messages it
  emitted, and the exception it threw, if any.  A handler that throws keeps
  every mutation it made before the throwing statement.
* `JSON.parse` is not re-implemented: an argument that goes through
  `JSON.parse` is given as `Parsed`, either `syntaxError` (the call throws) or
  the parsed value.
* The projectile payload is an arbitrary type `P`.
-/

namespace Tank

/-! ## Data model -/

/-- The object literal written at `webServer.js:216`.  Each field is the number
in front of the `'px'` suffix of the corresponding string. -/
structure Style where
  left : Int
  top : Int
  width : Int
  height : Int
deriving DecidableEq

/-- A player object, with the fields read or written by `webServer.js`. -/
structure Player where
  id : Int
  X_pos : Int
  Y_pos : Int
  width : Int
  style : Style
deriving DecidableEq

/-- The object `objects.projectileList`. -/
structure ProjectileList (P : Type) where
  projectiles : List P
  removeNumber : Int
deriving DecidableEq

/-- The module `objects`: `objects.players` and `objects.projectileList`. -/
structure World (P : Type) where
  players : List Player
  projectileList : ProjectileList P
deriving DecidableEq

/-- The module `./Constants` (`c`): `c.dimensions.minX`, `c.dimensions.maxX`,
`c.dimensions.minY`, `c.dimensions.maxY` and `c.speedMultiplier`.  The module
is not part of the sources, so its values are parameters. -/
structure Constants where
  minX : Int
  maxX : Int
  minY : Int
  maxY : Int
  speedMultiplier : Int
deriving DecidableEq

/-- The exceptions a handler can throw. -/
inductive JsError where
  | syntaxError
  | typeError
deriving DecidableEq

/-- The outcome of `JSON.parse` on a wire argument. -/
inductive Parsed (α : Type) where
  | syntaxError
  | value (a : α)
deriving DecidableEq

/-- The fields of the parsed `player` argument of `move` that the handler
reads.  `none` is a field that is missing or `null` (both are `!= undefined`
false). -/
structure MoveMsg where
  id : Option Int
  X_Vel : Option Int
  Y_Vel : Option Int
deriving DecidableEq

/-- A message sent by the server. -/
inductive Emit (P : Type) where
  | linkStart (objects : World P) (c : Constants)
  | id (n : Int)
  | frame (players : List Player) (projectileList : ProjectileList P)
deriving DecidableEq

/-- The result of running one handler. -/
structure Step (P : Type) where
  world : World P
  emits : List (Emit P)
  thrown : Option JsError
deriving DecidableEq

/-- An inbound socket event.  In `move`, the `player` argument is `none` inside
`Parsed.value` when the text parses to `null`, and the `newProjectile`
argument is `none` when it is `undefined` or `null`. -/
inductive Event (P : Type) where
  | onStart
  | newPlayer (player : Player)
  | move (player : Parsed (Option MoveMsg)) (newProjectile : Option (Parsed P))
deriving DecidableEq

/-! ## Handlers -/

variable {P : Type}

/-- The array read `objects.players[i]`: `undefined` (`none`) unless `i` is an
index of the array. -/
def playerAt (players : List Player) (i : Int) : Option Player :=
  if 0 ≤ i then players[i.toNat]? else none

/-- Modelled from the spec: `objects.newPlayer` (in `objects/objectLibrary.js`,
absent from the sources).  The specification gives the new player the id equal
to its index at insertion; the other fields come from `template`. -/
def newPlayer (players : List Player) (template : Player) : Player :=
  { template with id := (players.length : Int) }

/-- Handler of `onStart` (`webServer.js:173-176`). -/
def onStart (c : Constants) (template : Player) (w : World P) : Step P :=
  let w1 : World P := { w with players := w.players ++ [newPlayer w.players template] }
  { world := w1, emits := [Emit.linkStart w1 c], thrown := none }

/-- Handler of `newPlayer` (`webServer.js:178-183`). -/
def onNewPlayer (w : World P) (player : Player) : Step P :=
  let player1 : Player := { player with id := (w.players.length : Int) }
  { world := { w with players := w.players ++ [player1] },
    emits := [Emit.id player1.id],
    thrown := none }

/-- Lines 198-206 of `webServer.js`: the update of `object.Y_pos`. -/
def moveY (c : Constants) (yMaxBarrier : Int) (Y_Vel : Option Int) (object : Player) : Player :=
  match Y_Vel with
  | none => object
  | some v =>
    if object.Y_pos ≥ c.minY ∧ object.Y_pos ≤ yMaxBarrier then
      { object with Y_pos := object.Y_pos - v * c.speedMultiplier }
    else if object.Y_pos < c.minY then
      { object with Y_pos := c.minY }
    else if object.Y_pos > yMaxBarrier then
      { object with Y_pos := yMaxBarrier }
    else object

/-- Lines 207-215 of `webServer.js`: the update of `object.X_pos`. -/
def moveX (c : Constants) (xyMaxBarrier : Int) (X_Vel : Option Int) (object : Player) : Player :=
  match X_Vel with
  | none => object
  | some v =>
    if object.X_pos ≥ c.minX ∧ object.X_pos ≤ xyMaxBarrier then
      { object with X_pos := object.X_pos - v * c.speedMultiplier }
    else if object.X_pos < c.minX then
      { object with X_pos := c.minX }
    else if object.X_pos > xyMaxBarrier then
      { object with X_pos := xyMaxBarrier }
    else object

/-- Lines 193-216 of `webServer.js`: what the handler does to the object it
found at `objects.players[player.id]`. -/
def movePlayer (c : Constants) (i : Int) (msg : MoveMsg) (object : Player) : Player :=
  let xyMaxBarrier := c.maxX - object.width
  let yMaxBarrier := c.maxY - object.width
  let object := { object with id := i }
  let object := moveY c yMaxBarrier msg.Y_Vel object
  let object := moveX c xyMaxBarrier msg.X_Vel object
  { object with
    style := { left := object.X_pos, top := object.Y_pos,
               width := object.width, height := object.width } }

/-- Lines 190-219 of `webServer.js`: the part of `move` that follows the
projectile push. -/
def moveBody (c : Constants) (w : World P) (player : Parsed (Option MoveMsg)) : Step P :=
  match player with
  | Parsed.syntaxError => { world := w, emits := [], thrown := some JsError.syntaxError }
  | Parsed.value payload =>
    if w.players.length > 0 then
      match payload with
      | none => { world := w, emits := [], thrown := some JsError.typeError }
      | some msg =>
        match msg.id with
        | none => { world := w, emits := [], thrown := none }
        | some i =>
          match playerAt w.players i with
          | none => { world := w, emits := [], thrown := some JsError.typeError }
          | some object =>
            { world := { w with players := w.players.set i.toNat (movePlayer c i msg object) },
              emits := [], thrown := none }
    else { world := w, emits := [], thrown := none }

/-- Handler of `move` (`webServer.js:185-220`). -/
def onMove (c : Constants) (w : World P) (player : Parsed (Option MoveMsg))
    (newProjectile : Option (Parsed P)) : Step P :=
  match newProjectile with
  | none => moveBody c w player
  | some Parsed.syntaxError => { world := w, emits := [], thrown := some JsError.syntaxError }
  | some (Parsed.value proj) =>
    moveBody c
      { w with projectileList :=
          { w.projectileList with projectiles := w.projectileList.projectiles ++ [proj] } }
      player

/-- The timer callback `resetFrame` (`webServer.js:156-165`).  The function
`objects.updateProjectiles` is absent from the sources and is a parameter. -/
def resetFrame (updateProjectiles : ProjectileList P → ProjectileList P) (w : World P) : Step P :=
  let pl := updateProjectiles w.projectileList
  { world := { w with projectileList := { pl with removeNumber := 0 } },
    emits := [Emit.frame w.players pl],
    thrown := none }

/-- Dispatch of one inbound event to its handler. -/
def handle (c : Constants) (template : Player) (w : World P) : Event P → Step P
  | Event.onStart => onStart c template w
  | Event.newPlayer player => onNewPlayer w player
  | Event.move player newProjectile => onMove c w player newProjectile

/-- The world after a sequence of inbound events, handled one after the other. -/
def run (c : Constants) (template : Player) (w : World P) : List (Event P) → World P
  | [] => w
  | e :: es => run c template (handle c template w e).world es

/-- The world after `n` firings of the timer. -/
def ticks (updateProjectiles : ProjectileList P → ProjectileList P) (w : World P) : Nat → World P
  | 0 => w
  | n + 1 => (resetFrame updateProjectiles (ticks updateProjectiles w n)).world

/-- The frames published by `n` firings of the timer, oldest first. -/
def published (updateProjectiles : ProjectileList P → ProjectileList P) (w : World P) :
    Nat → List (Emit P)
  | 0 => []
  | n + 1 => published updateProjectiles w n ++
      (resetFrame updateProjectiles (ticks updateProjectiles w n)).emits

/-! ## Definitions that follow the specification -/

/-- The per-axis position rule of §4.2 of the specification, written from its
words: `maxBarrier = bound.max - width`; an absent velocity changes nothing;
a position within `[bound.min, maxBarrier]` becomes `position - v * m`; a
position below `bound.min` becomes `bound.min`; a position above `maxBarrier`
becomes `maxBarrier`. -/
def specAxis (boundMin boundMax width position m : Int) (velocity : Option Int) : Int :=
  let maxBarrier := boundMax - width
  match velocity with
  | none => position
  | some v =>
    if boundMin ≤ position ∧ position ≤ maxBarrier then position - v * m
    else if position < boundMin then boundMin
    else if maxBarrier < position then maxBarrier
    else position

/-- The boundary predicate of §3 for one player. -/
def Player.inBounds (c : Constants) (p : Player) : Prop :=
  (c.minX ≤ p.X_pos ∧ p.X_pos ≤ c.maxX - p.width) ∧
  (c.minY ≤ p.Y_pos ∧ p.Y_pos ≤ c.maxY - p.width)

instance (c : Constants) (p : Player) : Decidable (p.inBounds c) := by
  unfold Player.inBounds; infer_instance

/-- The boundary invariant of §3: every player is within the bounds. -/
def World.inBounds (c : Constants) (w : World P) : Prop :=
  ∀ p ∈ w.players, p.inBounds c

instance (c : Constants) (w : World P) : Decidable (w.inBounds c) := by
  unfold World.inBounds; infer_instance

/-- The number of `onStart` and `newPlayer` events in a sequence of events. -/
def joins : List (Event P) → Nat
  | [] => 0
  | Event.onStart :: es => joins es + 1
  | Event.newPlayer _ :: es => joins es + 1
  | Event.move _ _ :: es => joins es

/-- A velocity field, if present, moves a player by at most `d`:
`-d ≤ v * m ≤ d`. -/
def velocityWithin (m d : Int) : Option Int → Prop
  | none => True
  | some v => -d ≤ v * m ∧ v * m ≤ d

instance (m d : Int) (v : Option Int) : Decidable (velocityWithin m d v) := by
  cases v <;> unfold velocityWithin <;> infer_instance

/-- The event is a `move` whose velocity fields, if its payload has any, stay
within a step of `d`. -/
def Event.isMoveWithin (c : Constants) (d : Int) : Event P → Prop
  | Event.move (Parsed.value (some msg)) _ =>
    velocityWithin c.speedMultiplier d msg.X_Vel ∧ velocityWithin c.speedMultiplier d msg.Y_Vel
  | Event.move _ _ => True
  | _ => False

instance (c : Constants) (d : Int) (e : Event P) : Decidable (e.isMoveWithin c d) := by
  rcases e with _ | _ | ⟨_ | _ | _, _⟩ <;> unfold Event.isMoveWithin <;> infer_instance

/-- The boundary predicate relaxed by a margin `d` on every side. -/
def Player.inBoundsUpTo (c : Constants) (d : Int) (p : Player) : Prop :=
  (c.minX - d ≤ p.X_pos ∧ p.X_pos ≤ c.maxX - p.width + d) ∧
  (c.minY - d ≤ p.Y_pos ∧ p.Y_pos ≤ c.maxY - p.width + d)

instance (c : Constants) (d : Int) (p : Player) : Decidable (p.inBoundsUpTo c d) := by
  unfold Player.inBoundsUpTo; infer_instance

/-! ## Concrete data used by the examples -/

/-- The bounds of the clamp example of §8: `0..100` on both axes, multiplier `1`. -/
def exampleConstants : Constants :=
  { minX := 0, maxX := 100, minY := 0, maxY := 100, speedMultiplier := 1 }

/-- A player of width `10` at `(x, y)`, with the style the handler would write. -/
def examplePlayer (id x y : Int) : Player :=
  { id := id, X_pos := x, Y_pos := y, width := 10,
    style := { left := x, top := y, width := 10, height := 10 } }

/-- A world with the given players and no projectile. -/
def exampleWorld (players : List Player) : World Nat :=
  { players := players, projectileList := { projectiles := [], removeNumber := 0 } }

/-! ## Lemmas on the handlers -/

theorem playerAt_some_lt {players : List Player} {i : Int} {o : Player}
    (h : playerAt players i = some o) : 0 ≤ i ∧ i.toNat < players.length := by
  unfold playerAt at h
  split at h
  · rename_i hi
    exact ⟨hi, (List.getElem?_eq_some.mp h).1⟩
  · cases h

theorem playerAt_some_getElem? {players : List Player} {i : Int} {o : Player}
    (h : playerAt players i = some o) : players[i.toNat]? = some o := by
  unfold playerAt at h
  split at h
  · exact h
  · cases h

theorem moveY_fields (c : Constants) (b : Int) (v : Option Int) (o : Player) :
    (moveY c b v o).Y_pos = specAxis c.minY (b + o.width) o.width o.Y_pos c.speedMultiplier v ∧
    (moveY c b v o).X_pos = o.X_pos ∧ (moveY c b v o).width = o.width ∧
    (moveY c b v o).id = o.id := by
  have hb : b + o.width - o.width = b := by omega
  cases v with
  | none => simp [moveY, specAxis]
  | some v =>
    simp only [moveY, specAxis, hb, ge_iff_le, gt_iff_lt]
    split_ifs <;> simp

theorem moveX_fields (c : Constants) (b : Int) (v : Option Int) (o : Player) :
    (moveX c b v o).X_pos = specAxis c.minX (b + o.width) o.width o.X_pos c.speedMultiplier v ∧
    (moveX c b v o).Y_pos = o.Y_pos ∧ (moveX c b v o).width = o.width ∧
    (moveX c b v o).id = o.id := by
  have hb : b + o.width - o.width = b := by omega
  cases v with
  | none => simp [moveX, specAxis]
  | some v =>
    simp only [moveX, specAxis, hb, ge_iff_le, gt_iff_lt]
    split_ifs <;> simp

theorem movePlayer_fields (c : Constants) (i : Int) (msg : MoveMsg) (o : Player) :
    (movePlayer c i msg o).X_pos
        = specAxis c.minX c.maxX o.width o.X_pos c.speedMultiplier msg.X_Vel ∧
    (movePlayer c i msg o).Y_pos
        = specAxis c.minY c.maxY o.width o.Y_pos c.speedMultiplier msg.Y_Vel ∧
    (movePlayer c i msg o).width = o.width ∧ (movePlayer c i msg o).id = i := by
  have hy := moveY_fields c (c.maxY - o.width) msg.Y_Vel { o with id := i }
  have hx := moveX_fields c (c.maxX - o.width) msg.X_Vel
    (moveY c (c.maxY - o.width) msg.Y_Vel { o with id := i })
  simp only [movePlayer]
  obtain ⟨hy1, hy2, hy3, hy4⟩ := hy
  obtain ⟨hx1, hx2, hx3, hx4⟩ := hx
  simp only [hy3, hy2, hy1, hy4] at hx1 hx2 hx3 hx4
  refine ⟨?_, ?_, hx3, hx4⟩
  · rw [hx1]; congr 1; omega
  · rw [hx2]; congr 1; omega

theorem moveBody_hit (c : Constants) (w : World P) (msg : MoveMsg) (i : Int) (o : Player)
    (hid : msg.id = some i) (ho : playerAt w.players i = some o) :
    moveBody c w (Parsed.value (some msg))
      = { world := { w with players := w.players.set i.toNat (movePlayer c i msg o) },
          emits := [], thrown := none } := by
  have hlen : w.players.length > 0 := by
    have := (playerAt_some_lt ho).2
    omega
  simp [moveBody, hlen, hid, ho]

theorem moveBody_projectileList (c : Constants) (w : World P) (pl : Parsed (Option MoveMsg)) :
    (moveBody c w pl).world.projectileList = w.projectileList := by
  unfold moveBody
  repeat' split
  all_goals rfl

theorem moveBody_players (c : Constants) (w : World P) (pl : Parsed (Option MoveMsg)) :
    (moveBody c w pl).world.players = w.players ∨
    ∃ msg i o, pl = Parsed.value (some msg) ∧ msg.id = some i ∧
      playerAt w.players i = some o ∧
      (moveBody c w pl).world.players = w.players.set i.toNat (movePlayer c i msg o) := by
  rcases pl with _ | (_ | msg)
  · left; rfl
  · left; simp only [moveBody]; split <;> rfl
  · rcases hid : msg.id with _ | i
    · left; simp only [moveBody, hid]; split <;> rfl
    · rcases ho : playerAt w.players i with _ | o
      · left; simp only [moveBody, hid, ho]; split <;> rfl
      · right
        exact ⟨msg, i, o, rfl, hid, ho, by rw [moveBody_hit c w msg i o hid ho]⟩

theorem onMove_players (c : Constants) (w : World P) (pl : Parsed (Option MoveMsg))
    (np : Option (Parsed P)) :
    (onMove c w pl np).world.players = w.players ∨
    ∃ msg i o, pl = Parsed.value (some msg) ∧ msg.id = some i ∧
      playerAt w.players i = some o ∧
      (onMove c w pl np).world.players = w.players.set i.toNat (movePlayer c i msg o) := by
  rcases np with _ | (_ | proj)
  · exact moveBody_players c w pl
  · left; rfl
  · exact moveBody_players c
      { w with projectileList :=
          { w.projectileList with projectiles := w.projectileList.projectiles ++ [proj] } } pl

theorem onMove_hit_players (c : Constants) (w : World P) (msg : MoveMsg) (i : Int) (o : Player)
    (np : Option (Parsed P)) (hnp : np ≠ some Parsed.syntaxError)
    (hid : msg.id = some i) (ho : playerAt w.players i = some o) :
    (onMove c w (Parsed.value (some msg)) np).world.players
      = w.players.set i.toNat (movePlayer c i msg o) ∧
    (onMove c w (Parsed.value (some msg)) np).thrown = none := by
  rcases np with _ | (_ | proj)
  · simp [onMove, moveBody_hit c w msg i o hid ho]
  · exact absurd rfl hnp
  · have := moveBody_hit c
      { w with projectileList :=
          { w.projectileList with projectiles := w.projectileList.projectiles ++ [proj] } }
      msg i o hid ho
    simp [onMove, this]

theorem playerAt_set_self (players : List Player) (i : Int) (o x : Player)
    (ho : playerAt players i = some o) : playerAt (players.set i.toNat x) i = some x := by
  obtain ⟨h0, hlt⟩ := playerAt_some_lt ho
  simp [playerAt, h0, hlt]

theorem specAxis_recovers (lo hi width pos m v : Int) (hcfg : lo ≤ hi - width)
    (hout : pos < lo ∨ hi - width < pos) :
    specAxis lo hi width pos m (some v) = (if pos < lo then lo else hi - width) ∧
    lo ≤ specAxis lo hi width pos m (some v) ∧
    specAxis lo hi width pos m (some v) ≤ hi - width := by
  simp only [specAxis]
  split_ifs <;> omega

theorem specAxis_within (lo hi width pos m d : Int) (v : Option Int)
    (hcfg : lo ≤ hi - width) (hd : 0 ≤ d)
    (hpos : lo - d ≤ pos ∧ pos ≤ hi - width + d) (hv : velocityWithin m d v) :
    lo - d ≤ specAxis lo hi width pos m v ∧ specAxis lo hi width pos m v ≤ hi - width + d := by
  cases v with
  | none => simpa [specAxis] using hpos
  | some v =>
    simp only [velocityWithin] at hv
    simp only [specAxis]
    generalize v * m = s at hv ⊢
    split_ifs <;> omega

theorem movePlayer_inBoundsUpTo (c : Constants) (d i : Int) (msg : MoveMsg) (o : Player)
    (hd : 0 ≤ d)
    (hvx : velocityWithin c.speedMultiplier d msg.X_Vel)
    (hvy : velocityWithin c.speedMultiplier d msg.Y_Vel)
    (hcx : c.minX ≤ c.maxX - o.width) (hcy : c.minY ≤ c.maxY - o.width)
    (ho : o.inBoundsUpTo c d) :
    (movePlayer c i msg o).width = o.width ∧ (movePlayer c i msg o).inBoundsUpTo c d := by
  obtain ⟨hx, hy, hw, _⟩ := movePlayer_fields c i msg o
  refine ⟨hw, ?_⟩
  unfold Player.inBoundsUpTo at ho ⊢
  rw [hx, hy, hw]
  exact ⟨specAxis_within _ _ _ _ _ _ _ hcx hd ho.1 hvx,
    specAxis_within _ _ _ _ _ _ _ hcy hd ho.2 hvy⟩

theorem onMove_keeps_inBoundsUpTo (c : Constants) (d : Int) (w : World P)
    (pl : Parsed (Option MoveMsg)) (np : Option (Parsed P)) (hd : 0 ≤ d)
    (he : (Event.move pl np).isMoveWithin c d)
    (hw : ∀ p ∈ w.players,
      (c.minX ≤ c.maxX - p.width ∧ c.minY ≤ c.maxY - p.width) ∧ p.inBoundsUpTo c d) :
    ∀ p ∈ (onMove c w pl np).world.players,
      (c.minX ≤ c.maxX - p.width ∧ c.minY ≤ c.maxY - p.width) ∧ p.inBoundsUpTo c d := by
  rcases onMove_players c w pl np with h | ⟨msg, i, o, hpl, _, ho, h⟩
  · rw [h]; exact hw
  · rw [h]
    intro p hp
    rcases List.mem_or_eq_of_mem_set hp with hmem | heq
    · exact hw p hmem
    · subst hpl
      have hoin : o ∈ w.players := List.getElem?_mem (playerAt_some_getElem? ho)
      obtain ⟨⟨hcx, hcy⟩, hob⟩ := hw o hoin
      obtain ⟨hwd, hb⟩ := movePlayer_inBoundsUpTo c d i msg o hd he.1 he.2 hcx hcy hob
      rw [heq, hwd]
      exact ⟨⟨hcx, hcy⟩, hb⟩

theorem run_keeps_inBoundsUpTo (c : Constants) (template : Player) (d : Int) (hd : 0 ≤ d)
    (es : List (Event P)) :
    ∀ w : World P, (∀ e ∈ es, e.isMoveWithin c d) →
      (∀ p ∈ w.players,
        (c.minX ≤ c.maxX - p.width ∧ c.minY ≤ c.maxY - p.width) ∧ p.inBoundsUpTo c d) →
      ∀ p ∈ (run c template w es).players,
        (c.minX ≤ c.maxX - p.width ∧ c.minY ≤ c.maxY - p.width) ∧ p.inBoundsUpTo c d := by
  induction es with
  | nil => intro w _ hw; exact hw
  | cons e es ih =>
    intro w hes hw
    have he := hes e (List.mem_cons_self _ _)
    have hrest : ∀ e' ∈ es, e'.isMoveWithin c d := fun e' h => hes e' (List.mem_cons_of_mem _ h)
    simp only [run]
    apply ih _ hrest
    cases e with
    | onStart => exact absurd he (by simp [Event.isMoveWithin])
    | newPlayer p => exact absurd he (by simp [Event.isMoveWithin])
    | move pl np => exact onMove_keeps_inBoundsUpTo c d w pl np hd he hw

theorem onMove_getElem? (c : Constants) (w : World P) (msg : MoveMsg)
    (np : Option (Parsed P)) (i : Int) (k : Nat)
    (hnp : np ≠ some Parsed.syntaxError) (hid : msg.id = some i) :
    (onMove c w (Parsed.value (some msg)) np).world.players[k]?
      = if 0 ≤ i ∧ k = i.toNat then (w.players[k]?).map (movePlayer c i msg)
        else w.players[k]? := by
  rcases ho : playerAt w.players i with _ | o
  · have hsame : (onMove c w (Parsed.value (some msg)) np).world.players = w.players := by
      rcases onMove_players c w (Parsed.value (some msg)) np with h | ⟨m, i', o', hm, hi', ho', _⟩
      · exact h
      · cases hm
        rw [hid] at hi'
        cases hi'
        rw [ho] at ho'
        cases ho'
    rw [hsame]
    split_ifs with hk
    · obtain ⟨h0, rfl⟩ := hk
      have : w.players[i.toNat]? = none := by simpa [playerAt, h0] using ho
      simp [this]
    · rfl
  · obtain ⟨h0, hlt⟩ := playerAt_some_lt ho
    have hget := playerAt_some_getElem? ho
    rw [(onMove_hit_players c w msg i o np hnp hid ho).1, List.getElem?_set]
    by_cases hk : i.toNat = k
    · subst hk
      simp [h0, hlt, hget]
    · have hk' : ¬ k = i.toNat := fun h => hk h.symm
      simp [hk, hk']

theorem onMove_malformed_projectile (c : Constants) (w : World P)
    (pl : Parsed (Option MoveMsg)) :
    onMove c w pl (some Parsed.syntaxError)
      = { world := w, emits := [], thrown := some JsError.syntaxError } := rfl

theorem onMove_length (c : Constants) (w : World P) (pl : Parsed (Option MoveMsg))
    (np : Option (Parsed P)) :
    (onMove c w pl np).world.players.length = w.players.length := by
  rcases onMove_players c w pl np with h | ⟨_, _, _, _, _, _, h⟩ <;> simp [h]

theorem ids_set_self (players : List Player) (n : Nat) (i : Int) (x : Player)
    (hids : players.map Player.id = (List.range n).map Int.ofNat)
    (h0 : 0 ≤ i) (hx : x.id = i) :
    (players.set i.toNat x).map Player.id = (List.range n).map Int.ofNat := by
  rw [List.map_set, hids, hx]
  apply List.ext_getElem?
  intro k
  rw [List.getElem?_set]
  split_ifs with hk hlt
  · subst hk
    simp only [List.length_map, List.length_range] at hlt
    simp [List.getElem?_range hlt, Int.toNat_of_nonneg h0]
  · subst hk
    simp only [List.length_map, List.length_range] at hlt
    simp [List.getElem?_eq_none (show (List.range n).length ≤ i.toNat by simpa using hlt)]
  · rfl

theorem onMove_keeps_ids (c : Constants) (w : World P) (pl : Parsed (Option MoveMsg))
    (np : Option (Parsed P)) (n : Nat)
    (hids : w.players.map Player.id = (List.range n).map Int.ofNat) :
    (onMove c w pl np).world.players.map Player.id = (List.range n).map Int.ofNat := by
  rcases onMove_players c w pl np with h | ⟨msg, i, o, _, _, ho, h⟩
  · rw [h]; exact hids
  · rw [h]
    exact ids_set_self w.players n i _ hids (playerAt_some_lt ho).1
      (movePlayer_fields c i msg o).2.2.2

theorem ids_length (players : List Player) (n : Nat)
    (hids : players.map Player.id = (List.range n).map Int.ofNat) : players.length = n := by
  have := congrArg List.length hids
  simpa using this

theorem ids_append (players : List Player) (n : Nat) (x : Player)
    (hids : players.map Player.id = (List.range n).map Int.ofNat) (hx : x.id = (n : Int)) :
    (players ++ [x]).map Player.id = (List.range (n + 1)).map Int.ofNat := by
  simp [List.range_succ, hids, hx]

theorem run_ids (c : Constants) (template : Player) (es : List (Event P)) :
    ∀ (w : World P) (n : Nat), w.players.map Player.id = (List.range n).map Int.ofNat →
      (run c template w es).players.map Player.id
        = (List.range (n + joins es)).map Int.ofNat := by
  induction es with
  | nil => intro w n h; simpa [run, joins] using h
  | cons e es ih =>
    intro w n h
    have hlen := ids_length w.players n h
    cases e with
    | onStart =>
      have := ih (handle c template w Event.onStart).world (n + 1)
        (ids_append w.players n _ h (by simp [newPlayer, hlen]))
      have hn : n + joins (Event.onStart :: es) = n + 1 + joins es := by
        simp only [joins]; omega
      rw [hn]; exact this
    | newPlayer p =>
      have := ih (handle c template w (Event.newPlayer p)).world (n + 1)
        (ids_append w.players n _ h (by simp [hlen]))
      have hn : n + joins (Event.newPlayer p :: es) = n + 1 + joins es := by
        simp only [joins]; omega
      rw [hn]; exact this
    | move pl np =>
      have := ih (handle c template w (Event.move pl np)).world n
        (onMove_keeps_ids c w pl np n h)
      simpa [run, joins] using this

/-! ## Properties of the `move` handler -/

/-- C2: for a `move` event whose id references an existing player (and whose
projectile argument, if any, parses, so that the position code is reached), the
new position of that player on each axis is the value of the specification's
per-axis rule `specAxis`, applied to that axis's bounds, position and velocity
only: the result on one axis does not depend on the other axis. -/
theorem move_axis_matches_spec (c : Constants) (w : World P) (msg : MoveMsg)
    (np : Option (Parsed P)) (i : Int) (o : Player)
    (hnp : np ≠ some Parsed.syntaxError) (hid : msg.id = some i)
    (ho : playerAt w.players i = some o) :
    ∃ q, playerAt (onMove c w (Parsed.value (some msg)) np).world.players i = some q ∧
      q.X_pos = specAxis c.minX c.maxX o.width o.X_pos c.speedMultiplier msg.X_Vel ∧
      q.Y_pos = specAxis c.minY c.maxY o.width o.Y_pos c.speedMultiplier msg.Y_Vel := by
  obtain ⟨hpl, _⟩ := onMove_hit_players c w msg i o np hnp hid ho
  obtain ⟨hx, hy, _, _⟩ := movePlayer_fields c i msg o
  exact ⟨movePlayer c i msg o, by rw [hpl]; exact playerAt_set_self _ _ o _ ho, hx, hy⟩

/-- Witness of C2, the clamp example of §8: bounds `0..100`, width `10`,
`X = 50`, `velocityX = -60`, multiplier `1` give `X = 110`; `Y` is untouched. -/
theorem move_axis_matches_spec_witness :
    playerAt (exampleWorld [examplePlayer 0 50 50]).players 0 = some (examplePlayer 0 50 50) ∧
    ∃ q, playerAt (onMove exampleConstants (exampleWorld [examplePlayer 0 50 50])
        (Parsed.value (some { id := some 0, X_Vel := some (-60), Y_Vel := none }))
        none).world.players 0 = some q ∧
      q.X_pos = 110 ∧ q.Y_pos = 50 := by
  refine ⟨by decide, ?_⟩
  obtain ⟨q, h1, h2, h3⟩ := move_axis_matches_spec exampleConstants
    (exampleWorld [examplePlayer 0 50 50])
    { id := some 0, X_Vel := some (-60), Y_Vel := none } none 0 (examplePlayer 0 50 50)
    (by decide) rfl (by decide)
  exact ⟨q, h1, by rw [h2]; decide, by rw [h3]; decide⟩

/-- C3: when `bound.min ≤ bound.max - width` and the position of the addressed
player on an axis is outside `[bound.min, bound.max - width]`, a `move` event
carrying any velocity for that axis ignores the velocity: the axis becomes
`bound.min` if it was below and `bound.max - width` if it was above, and is
within the bounds afterwards.  Stated for the X axis and for the Y axis. -/
theorem overshoot_recovers_in_one_move (c : Constants) (w : World P) (msg : MoveMsg)
    (np : Option (Parsed P)) (i : Int) (o : Player)
    (hnp : np ≠ some Parsed.syntaxError) (hid : msg.id = some i)
    (ho : playerAt w.players i = some o) :
    ∃ q, playerAt (onMove c w (Parsed.value (some msg)) np).world.players i = some q ∧
      q.width = o.width ∧
      (∀ v, msg.X_Vel = some v → c.minX ≤ c.maxX - o.width →
        (o.X_pos < c.minX ∨ c.maxX - o.width < o.X_pos) →
        q.X_pos = (if o.X_pos < c.minX then c.minX else c.maxX - o.width) ∧
        c.minX ≤ q.X_pos ∧ q.X_pos ≤ c.maxX - q.width) ∧
      (∀ v, msg.Y_Vel = some v → c.minY ≤ c.maxY - o.width →
        (o.Y_pos < c.minY ∨ c.maxY - o.width < o.Y_pos) →
        q.Y_pos = (if o.Y_pos < c.minY then c.minY else c.maxY - o.width) ∧
        c.minY ≤ q.Y_pos ∧ q.Y_pos ≤ c.maxY - q.width) := by
  obtain ⟨hpl, _⟩ := onMove_hit_players c w msg i o np hnp hid ho
  obtain ⟨hx, hy, hw, _⟩ := movePlayer_fields c i msg o
  refine ⟨movePlayer c i msg o, by rw [hpl]; exact playerAt_set_self _ _ o _ ho, hw, ?_, ?_⟩
  · intro v hv hcfg hout
    rw [hx, hv, hw]
    exact specAxis_recovers _ _ _ _ _ v hcfg hout
  · intro v hv hcfg hout
    rw [hy, hv, hw]
    exact specAxis_recovers _ _ _ _ _ v hcfg hout

/-- Witness of C3, the second half of the clamp example of §8: bounds
`0..100`, width `10`, `X = 110`, `velocityX = 0` give `X = 90`; and `Y = -5`
with `velocityY = 7` gives `Y = 0`. -/
theorem overshoot_recovers_in_one_move_witness :
    ∃ q, playerAt (onMove exampleConstants (exampleWorld [examplePlayer 0 110 (-5)])
        (Parsed.value (some { id := some 0, X_Vel := some 0, Y_Vel := some 7 }))
        none).world.players 0 = some q ∧
      q.X_pos = 90 ∧ q.Y_pos = 0 := by
  obtain ⟨q, h1, _, hX, hY⟩ := overshoot_recovers_in_one_move exampleConstants
    (exampleWorld [examplePlayer 0 110 (-5)])
    { id := some 0, X_Vel := some 0, Y_Vel := some 7 } none 0 (examplePlayer 0 110 (-5))
    (by decide) rfl (by decide)
  have hx := (hX 0 rfl (by decide) (by decide)).1
  have hy := (hY 7 rfl (by decide) (by decide)).1
  exact ⟨q, h1, by rw [hx]; decide, by rw [hy]; decide⟩

/-- C4: a `move` event that carries a parseable `newProjectile` payload `proj`
leaves `projectileList.projectiles` equal to the previous sequence followed by
`proj`, whatever the `player` argument is (any id, valid or not, absent,
`null`, or unparseable) and whatever the player collection is. -/
theorem projectile_append_unconditional (c : Constants) (w : World P)
    (player : Parsed (Option MoveMsg)) (proj : P) :
    (onMove c w player (some (Parsed.value proj))).world.projectileList.projectiles
      = w.projectileList.projectiles ++ [proj] := by
  simp [onMove, moveBody_projectileList]

/-- C5, the code at the failing input: in a one-player world a `move` event
with `id = 999` and no projectile throws a `TypeError` (the read of
`object.width` on `undefined`, line 193); the world is left as it was. -/
theorem move_unknown_id_throws :
    onMove exampleConstants (exampleWorld [examplePlayer 0 50 50])
        (Parsed.value (some { id := some 999, X_Vel := some 1, Y_Vel := some 1 })) none
      = { world := exampleWorld [examplePlayer 0 50 50], emits := [],
          thrown := some JsError.typeError } := by
  decide

/-- C6 as stated fails: with an empty player collection and no projectile, a
`move` event whose `player` payload is unparseable throws a `SyntaxError`
(line 190 runs before the guard of line 191); and with a non-empty collection
a payload that parses to `null`, which has no id, throws a `TypeError` at the
read of `player.id` (line 191). -/
theorem absent_id_or_empty_world_counterexample :
    (exampleWorld []).players = [] ∧
    (onMove exampleConstants (exampleWorld []) Parsed.syntaxError none).thrown
      = some JsError.syntaxError ∧
    (onMove exampleConstants (exampleWorld [examplePlayer 0 50 50])
        (Parsed.value none) none).thrown = some JsError.typeError := by
  decide

/-- C6, amended: for a `move` event without a projectile, (0) if the `player`
payload is unparseable the handler throws a `SyntaxError` (line 190) and
returns the world unchanged, also when the player collection is empty;
otherwise, for a payload that parses, (1) if the player collection is empty the
handler throws nothing and returns the world unchanged, whatever the payload;
(2) if the payload is an object whose `id` is undefined or `null` the handler
throws nothing and returns the world unchanged; (3) `id = 0` with a non-empty
collection is not absent: the handler throws nothing and replaces player 0 by
the result of applying the velocities to it (lines 193-216), leaving the other
players as they were. -/
theorem absent_id_or_empty_world_is_noop (c : Constants) (w : World P) :
    onMove c w Parsed.syntaxError none
      = { world := w, emits := [], thrown := some JsError.syntaxError } ∧
    (∀ payload, w.players = [] →
      onMove c w (Parsed.value payload) none = { world := w, emits := [], thrown := none }) ∧
    (∀ msg : MoveMsg, msg.id = none →
      onMove c w (Parsed.value (some msg)) none
        = { world := w, emits := [], thrown := none }) ∧
    (∀ (msg : MoveMsg) (o : Player) (rest : List Player),
      w.players = o :: rest → msg.id = some 0 →
      onMove c w (Parsed.value (some msg)) none
        = { world := { w with players := movePlayer c 0 msg o :: rest },
            emits := [], thrown := none }) := by
  refine ⟨rfl, ?_, ?_, ?_⟩
  · intro payload hemp
    simp [onMove, moveBody, hemp]
  · intro msg hid
    simp only [onMove, moveBody, hid]
    split <;> rfl
  · intro msg o rest hpl hid
    have ho : playerAt w.players 0 = some o := by simp [playerAt, hpl]
    simp only [onMove]
    rw [moveBody_hit c w msg 0 o hid ho]
    simp [hpl]

/-- Witness of the amended C6 at concrete worlds: the empty world with a
`null` payload and with an object payload, and a payload without id, are left
unchanged with nothing thrown; `id = 0` moves player 0 from `X = 50` to
`X = 47`. -/
theorem absent_id_or_empty_world_is_noop_witness :
    onMove exampleConstants (exampleWorld []) (Parsed.value none) none
      = { world := exampleWorld [], emits := [], thrown := none } ∧
    onMove exampleConstants (exampleWorld [])
        (Parsed.value (some { id := some 0, X_Vel := some 3, Y_Vel := none })) none
      = { world := exampleWorld [], emits := [], thrown := none } ∧
    onMove exampleConstants (exampleWorld [examplePlayer 0 50 50])
        (Parsed.value (some { id := none, X_Vel := some 3, Y_Vel := none })) none
      = { world := exampleWorld [examplePlayer 0 50 50], emits := [], thrown := none } ∧
    onMove exampleConstants (exampleWorld [examplePlayer 0 50 50])
        (Parsed.value (some { id := some 0, X_Vel := some 3, Y_Vel := none })) none
      = { world := exampleWorld [examplePlayer 0 47 50], emits := [], thrown := none } := by
  refine ⟨?_, ?_, ?_, ?_⟩
  · exact (absent_id_or_empty_world_is_noop exampleConstants (exampleWorld [])).2.1 _ rfl
  · exact (absent_id_or_empty_world_is_noop exampleConstants (exampleWorld [])).2.1 _ rfl
  · exact (absent_id_or_empty_world_is_noop exampleConstants
      (exampleWorld [examplePlayer 0 50 50])).2.2.1 _ rfl
  · have h := (absent_id_or_empty_world_is_noop exampleConstants
      (exampleWorld [examplePlayer 0 50 50])).2.2.2
      { id := some 0, X_Vel := some 3, Y_Vel := none } (examplePlayer 0 50 50) [] rfl rfl
    rw [h]
    decide

/-- C1 as stated fails: in the clamp example of §8 the world is within the
bounds, and after one `move` with `velocityX = -60` the player is at `X = 110`,
outside `[0, 90]`. -/
theorem boundary_invariant_counterexample :
    (exampleWorld [examplePlayer 0 50 50]).inBounds exampleConstants ∧
    ¬ (onMove exampleConstants (exampleWorld [examplePlayer 0 50 50])
        (Parsed.value (some { id := some 0, X_Vel := some (-60), Y_Vel := none }))
        none).world.inBounds exampleConstants := by
  decide

/-- C1, amended: starting from a world in which every player is within the
bounds, for every sequence of `move` events whose velocities `v` all satisfy
`-d ≤ v * speedMultiplier ≤ d`, every player's position after the sequence (so
after each event of it) satisfies `min - d ≤ pos ≤ max - width + d` on both
axes: a position leaves the bounds by at most one step. -/
theorem boundary_holds_up_to_one_step (c : Constants) (template : Player) (d : Int)
    (w : World P) (es : List (Event P)) (hd : 0 ≤ d) (hw : w.inBounds c)
    (hes : ∀ e ∈ es, e.isMoveWithin c d) :
    ∀ p ∈ (run c template w es).players, p.inBoundsUpTo c d := by
  intro p hp
  refine (run_keeps_inBoundsUpTo c template d hd es w hes ?_ p hp).2
  intro q hq
  have hqb := hw q hq
  unfold Player.inBounds at hqb
  unfold Player.inBoundsUpTo
  omega

/-- Witness of the amended C1: the clamp example of §8 followed by a second
`move`, with steps of at most `60`. -/
theorem boundary_holds_up_to_one_step_witness :
    (exampleWorld [examplePlayer 0 50 50]).inBounds exampleConstants ∧
    ∀ p ∈ (run exampleConstants (examplePlayer 0 0 0) (exampleWorld [examplePlayer 0 50 50])
        [Event.move (Parsed.value (some { id := some 0, X_Vel := some (-60), Y_Vel := none }))
            none,
         Event.move (Parsed.value (some { id := some 0, X_Vel := some 0, Y_Vel := some 20 }))
            none]).players,
      p.inBoundsUpTo exampleConstants 60 :=
  ⟨by decide,
   boundary_holds_up_to_one_step exampleConstants (examplePlayer 0 0 0) 60
    (exampleWorld [examplePlayer 0 50 50]) _ (by decide) (by decide) (by decide)⟩

/-- C7: starting from an empty player collection, after any sequence `es` of
`onStart`, `newPlayer` and `move` events the collection holds one player per
`onStart`/`newPlayer` event of `es`, and the player stored at index `k` has
id `k`.  The next event `e` then acts as follows: `onStart` appends exactly one
player, with id the number of earlier joins; `newPlayer` appends exactly the
submitted player with its id set to the length of the collection before the
append, and emits that id (and nothing else); `move` changes neither the length
of the collection nor the id stored at any index. -/
theorem id_assignment (c : Constants) (template : Player) (pl0 : ProjectileList P)
    (es : List (Event P)) (e : Event P) :
    (run c template { players := [], projectileList := pl0 } es).players.length = joins es ∧
    (run c template { players := [], projectileList := pl0 } es).players.map Player.id
      = (List.range (joins es)).map Int.ofNat ∧
    match e with
    | Event.onStart =>
      ∃ p, (handle c template (run c template { players := [], projectileList := pl0 } es)
            e).world.players
          = (run c template { players := [], projectileList := pl0 } es).players ++ [p] ∧
        p.id = (joins es : Int)
    | Event.newPlayer player =>
      (handle c template (run c template { players := [], projectileList := pl0 } es)
          e).world.players
        = (run c template { players := [], projectileList := pl0 } es).players
            ++ [{ player with id := (joins es : Int) }] ∧
      (handle c template (run c template { players := [], projectileList := pl0 } es) e).emits
        = [Emit.id (joins es : Int)]
    | Event.move _ _ =>
      (handle c template (run c template { players := [], projectileList := pl0 } es)
          e).world.players.length = joins es ∧
      (handle c template (run c template { players := [], projectileList := pl0 } es)
          e).world.players.map Player.id = (List.range (joins es)).map Int.ofNat := by
  have hids := run_ids c template es { players := [], projectileList := pl0 } 0 (by simp)
  rw [Nat.zero_add] at hids
  have hlen := ids_length _ _ hids
  refine ⟨hlen, hids, ?_⟩
  cases e with
  | onStart =>
    exact ⟨newPlayer _ template, rfl, by simp [newPlayer, hlen]⟩
  | newPlayer player =>
    simp [handle, onNewPlayer, hlen]
  | move pl np =>
    have h := onMove_keeps_ids c _ pl np _ hids
    exact ⟨ids_length _ _ h, h⟩

/-- C8 as stated fails: a `move` event with a well-formed `newProjectile` and
an unparseable `player` payload throws, but the projectile has already been
appended, so the world differs from the one before the event. -/
theorem malformed_intent_counterexample :
    (onMove exampleConstants (exampleWorld [examplePlayer 0 50 50])
        Parsed.syntaxError (some (Parsed.value 7))).thrown = some JsError.syntaxError ∧
    (onMove exampleConstants (exampleWorld [examplePlayer 0 50 50])
        Parsed.syntaxError (some (Parsed.value 7))).world
      ≠ exampleWorld [examplePlayer 0 50 50] := by
  decide

/-- C8, amended: a `move` event whose `newProjectile` payload is unparseable,
or whose `player` payload is unparseable while no `newProjectile` is carried,
throws and leaves the world identical to the one before the event; a `move`
event that carries a well-formed `newProjectile` with an unparseable `player`
payload throws after the projectile has been appended: the players and
`removeNumber` are unchanged and `projectiles` is the previous sequence
followed by that projectile. -/
theorem malformed_intent_effect (c : Constants) (w : World P)
    (player : Parsed (Option MoveMsg)) (proj : P) :
    onMove c w player (some Parsed.syntaxError)
      = { world := w, emits := [], thrown := some JsError.syntaxError } ∧
    onMove c w Parsed.syntaxError none
      = { world := w, emits := [], thrown := some JsError.syntaxError } ∧
    onMove c w Parsed.syntaxError (some (Parsed.value proj))
      = { world :=
            { players := w.players,
              projectileList :=
                { projectiles := w.projectileList.projectiles ++ [proj],
                  removeNumber := w.projectileList.removeNumber } },
          emits := [], thrown := some JsError.syntaxError } :=
  ⟨rfl, rfl, rfl⟩

/-- C9: a `move` event addressed to player id `i` leaves the player stored at
every index `k ≠ i` unchanged (all its fields) and keeps the length of the
collection; and two `move` events addressed to different ids `i ≠ j` give the
same player collection in either order. -/
theorem moves_of_distinct_players_commute (c : Constants) (w : World P)
    (msg1 msg2 : MoveMsg) (np1 np2 : Option (Parsed P)) (i j : Int)
    (hi : msg1.id = some i) (hj : msg2.id = some j) (hij : i ≠ j) :
    (∀ k : Nat, (k : Int) ≠ i →
      (onMove c w (Parsed.value (some msg1)) np1).world.players[k]? = w.players[k]?) ∧
    (onMove c w (Parsed.value (some msg1)) np1).world.players.length = w.players.length ∧
    (onMove c (onMove c w (Parsed.value (some msg1)) np1).world
        (Parsed.value (some msg2)) np2).world.players
      = (onMove c (onMove c w (Parsed.value (some msg2)) np2).world
          (Parsed.value (some msg1)) np1).world.players := by
  refine ⟨?_, onMove_length c w _ np1, ?_⟩
  · intro k hk
    by_cases h1 : np1 = some Parsed.syntaxError
    · subst h1; rfl
    · rw [onMove_getElem? c w msg1 np1 i k h1 hi]
      have : ¬ (0 ≤ i ∧ k = i.toNat) := by
        rintro ⟨h0, rfl⟩
        exact hk (Int.toNat_of_nonneg h0)
      simp [this]
  · by_cases h1 : np1 = some Parsed.syntaxError
    · subst h1; rfl
    · by_cases h2 : np2 = some Parsed.syntaxError
      · subst h2; rfl
      · apply List.ext_getElem?
        intro k
        rw [onMove_getElem? c _ msg2 np2 j k h2 hj, onMove_getElem? c w msg1 np1 i k h1 hi,
          onMove_getElem? c _ msg1 np1 i k h1 hi, onMove_getElem? c w msg2 np2 j k h2 hj]
        by_cases ha : 0 ≤ i ∧ k = i.toNat
        · have hb : ¬ (0 ≤ j ∧ k = j.toNat) := by
            rintro ⟨hj0, hkj⟩
            apply hij
            rw [← Int.toNat_of_nonneg ha.1, ← Int.toNat_of_nonneg hj0, ← ha.2, ← hkj]
          simp only [if_pos ha, if_neg hb]
        · simp only [if_neg ha]

/-- Witness of C9: in a two-player world, a move of player 0 and a move of
player 1 give the same collection in either order, and the move of player 0
leaves player 1 as it was. -/
theorem moves_of_distinct_players_commute_witness :
    (onMove exampleConstants (exampleWorld [examplePlayer 0 50 50, examplePlayer 1 20 30])
        (Parsed.value (some { id := some 0, X_Vel := some 5, Y_Vel := none }))
        none).world.players[1]? = some (examplePlayer 1 20 30) ∧
    (onMove exampleConstants
        (onMove exampleConstants
          (exampleWorld [examplePlayer 0 50 50, examplePlayer 1 20 30])
          (Parsed.value (some { id := some 0, X_Vel := some 5, Y_Vel := none })) none).world
        (Parsed.value (some { id := some 1, X_Vel := none, Y_Vel := some 4 }))
        none).world.players
      = [examplePlayer 0 45 50, examplePlayer 1 20 26] := by
  have h := moves_of_distinct_players_commute exampleConstants
    (exampleWorld [examplePlayer 0 50 50, examplePlayer 1 20 30])
    { id := some 0, X_Vel := some 5, Y_Vel := none }
    { id := some 1, X_Vel := none, Y_Vel := some 4 } none none 0 1 rfl rfl (by decide)
  refine ⟨?_, ?_⟩
  · rw [h.1 1 (by decide)]; rfl
  · rw [h.2.2]; decide

/-! ## Properties of the broadcast timer -/

/-- C10: one firing of the timer callback, for any `updateProjectiles`,
publishes exactly one `frame`, built from the current players and from the
projectile list as `updateProjectiles` left it (before the reset); it leaves
the players unchanged, leaves the projectiles as `updateProjectiles` left them
and ends with `removeNumber = 0`.  Hence `n` firings publish exactly `n`
frames, `removeNumber` is `0` after each firing, and the players are those of
the start. -/
theorem broadcast_tick_postcondition
    (updateProjectiles : ProjectileList P → ProjectileList P) (w : World P) :
    (resetFrame updateProjectiles w).emits
      = [Emit.frame w.players (updateProjectiles w.projectileList)] ∧
    (resetFrame updateProjectiles w).thrown = none ∧
    (resetFrame updateProjectiles w).world.players = w.players ∧
    (resetFrame updateProjectiles w).world.projectileList.projectiles
      = (updateProjectiles w.projectileList).projectiles ∧
    (resetFrame updateProjectiles w).world.projectileList.removeNumber = 0 ∧
    ∀ n : Nat, (published updateProjectiles w n).length = n ∧
      (ticks updateProjectiles w (n + 1)).projectileList.removeNumber = 0 ∧
      (ticks updateProjectiles w n).players = w.players := by
  refine ⟨rfl, rfl, rfl, rfl, rfl, ?_⟩
  intro n
  refine ⟨?_, rfl, ?_⟩
  · induction n with
    | zero => rfl
    | succ n ih => simp [published, resetFrame, ih]
  · induction n with
    | zero => rfl
    | succ n ih => simpa [ticks, resetFrame] using ih

end Tank
